import Mathlib

set_option autoImplicit false

/-!
Verification of the spotifyd e-paper display core: change detection
(`_should_update`), layout and rendering (`update_display`, `_wrap_text`,
`_format_time`) and the poll-loop tick logic, shallowly embedded from the
Python source (`src/main.py`, `src/display_manager.py`).

Strings are modelled as lists of unicode characters (`List Char`), matching
Python strings as sequences of code points.  Pixel coordinates are `Int`
(Python integers), durations are `Nat` (MPRIS microsecond counters are
non-negative), and the progress-fraction arithmetic, done in Python floats,
is modelled exactly over `ℚ`.
-/

/-- The single space character, used by `str.join` with separator `" "`. -/
def spaceChar : Char := Char.ofNat 32

/-- Helper for `pyWords`: walks the character list accumulating the current
word (in reverse) in `acc`, flushing it at each whitespace character.
Mirrors the semantics of Python `str.split()` with no arguments: runs of
whitespace separate words and empty pieces are dropped. -/
def splitWordsAux : List Char → List Char → List (List Char)
  | [], acc => if acc = [] then [] else [acc.reverse]
  | c :: cs, acc =>
    if c.isWhitespace then
      if acc = [] then splitWordsAux cs [] else acc.reverse :: splitWordsAux cs []
    else
      splitWordsAux cs (c :: acc)

/-- Python `text.split()` (no separator argument): the whitespace-separated
words of `text`, with empty pieces dropped. -/
def pyWords (s : List Char) : List (List Char) := splitWordsAux s []

/-- Python str.join with a single-space separator: words interleaved with
single spaces. -/
def joinSpace : List (List Char) → List Char
  | [] => []
  | [w] => w
  | w :: ws => w ++ spaceChar :: joinSpace ws

/-- Python `text.strip()`: leading and trailing whitespace removed. -/
def pyStrip (s : List Char) : List Char :=
  ((s.dropWhile fun c => c.isWhitespace).reverse.dropWhile fun c => c.isWhitespace).reverse

/-- The word-accumulation loop of `DisplayManager._wrap_text`
(src/display_manager.py lines 287-303).  `lines` are the flushed lines,
`current` the words of the line under construction.  For each word the joined
candidate line is measured; if it fits it extends the current line, otherwise
the current line is flushed and the word starts a new line — unless the
current line is empty, in which case the oversized word is emitted alone. -/
def wrapLoop (measure : List Char → Nat) (maxWidth : Int) :
    List (List Char) → List (List Char) → List (List Char) → List (List Char)
  | [], lines, current =>
    if current = [] then lines else lines ++ [joinSpace current]
  | w :: ws, lines, current =>
    if (measure (joinSpace (current ++ [w])) : Int) ≤ maxWidth then
      wrapLoop measure maxWidth ws lines (current ++ [w])
    else if current = [] then
      wrapLoop measure maxWidth ws (lines ++ [w]) []
    else
      wrapLoop measure maxWidth ws (lines ++ [joinSpace current]) [w]

/-- Model of `DisplayManager._wrap_text(text, font, max_width)`
(src/display_manager.py lines 274-305).  The font is abstracted by its
measurement capability `measure` (the width reported by `textbbox`). -/
def wrap_text (measure : List Char → Nat) (maxWidth : Int) (text : List Char) :
    List (List Char) :=
  if text = [] then [[]]
  else
    let lines := wrapLoop measure maxWidth (pyWords text) [] []
    if lines = [] then [[]] else lines

/-- Helper of `DisplayManager._format_time`: Python format spec `02d` applied to
a non-negative integer (zero-pad to at least two digits). -/
def py02d (n : Nat) : String :=
  if n < 10 then ("0" ++ toString n) else toString n

/-- Model of `DisplayManager._format_time(seconds)` (src/display_manager.py
lines 307-311): seconds rendered as `MM:SS`. -/
def format_time (seconds : Nat) : String :=
  py02d (seconds / 60) ++ ":" ++ py02d (seconds % 60)

/-- The progress-bar time label: the formatted position and the formatted
length joined by a slash. -/
def time_text (position length : Nat) : String :=
  format_time position ++ " / " ++ format_time length

/-- The three font tiers loaded by `DisplayManager._load_fonts`. -/
inductive FontTier
  | large
  | medium
  | small
deriving DecidableEq

/-- Drawing primitives issued against the PIL canvas by `update_display`:
text draws and the outlined and filled rectangles of the progress bar, with the
PIL coordinate arguments. -/
inductive DrawOp
  | text (x y : Int) (s : List Char) (tier : FontTier)
  | rectOutline (x0 y0 x1 y1 : Int)
  | rectFill (x0 y0 x1 y1 : Int)
deriving DecidableEq

/-- Display geometry fixed by configuration (`display_width`,
`display_height`; defaults 250 × 122 in src/config.py). -/
structure Geometry where
  width : Nat
  height : Nat
deriving DecidableEq

/-- The metadata mapping handed to `update_display` and `_should_update`:
a Python dict in which every key may be absent (`Option`).  Text values are
strings, `position` and `length` are microsecond counts. -/
structure Metadata where
  title : Option (List Char)
  artist : Option (List Char)
  album : Option (List Char)
  status : Option (List Char)
  position : Option Nat
  length : Option Nat
  art_url : Option (List Char)
deriving DecidableEq

/-- The values extracted from the metadata dict at the top of
`update_display` (src/display_manager.py lines 192-197), after defaulting
and after the microseconds-to-seconds integer division. -/
structure Extracted where
  title : List Char
  artist : List Char
  album : List Char
  status : List Char
  position : Nat
  length : Nat
deriving DecidableEq

/-- The extraction step of `update_display`: `metadata.get(key, default)` for
each field, then `// 1000000` on `position` and `length`. -/
def extract (metadata : Metadata) : Extracted where
  title := metadata.title.getD ("Unknown Title".data)
  artist := metadata.artist.getD ("Unknown Artist".data)
  album := metadata.album.getD ("Unknown Album".data)
  status := metadata.status.getD ("Stopped".data)
  position := metadata.position.getD 0 / 1000000
  length := metadata.length.getD 0 / 1000000

/-- The status glyph chosen on src/display_manager.py line 204. -/
def statusIcon (status : List Char) : List Char :=
  if status = "Playing".data then ("▶".data)
  else if status = "Paused".data then ("⏸".data)
  else ("⏹".data)

/-- Draw a block of text lines at fixed `x`, starting at `y` and advancing by
`advance` per line; returns the draw ops and the final `y_pos`. -/
def drawLines (tier : FontTier) (x advance : Int) :
    Int → List (List Char) → List DrawOp × Int
  | y, [] => ([], y)
  | y, line :: rest =>
    let r := drawLines tier x advance (y + advance) rest
    (DrawOp.text x y line tier :: r.1, r.2)

/-- The raw progress fraction `position / length` followed by the defensive
clamp `min(1.0, max(0.0, progress))` (src/display_manager.py lines 229-230),
with the float arithmetic modelled exactly over `ℚ`.  `position` and
`length` are the extracted second counts. -/
def clampFrac (position length : Nat) : ℚ :=
  min 1 (max 0 ((position : ℚ) / (length : ℚ)))

/-- Python `int(x)`: truncation toward zero. -/
def pyInt (q : ℚ) : ℤ :=
  if q < 0 then -⌊-q⌋ else ⌊q⌋

/-- Model of the assignment fill_width = int(bar_width * progress)
(src/display_manager.py line 243). -/
def fill_width (barWidth : Int) (position length : Nat) : Int :=
  pyInt ((barWidth : ℚ) * clampFrac position length)

/-- The progress-bar section of `update_display` (src/display_manager.py
lines 227-250): drawn only when the extracted `length` (seconds) is
positive; outline rectangle, fill rectangle when `fill_width > 0`, and the
time label 12px below the bar top. -/
def progressOps (geo : Geometry) (position length : Nat) : List DrawOp :=
  if 0 < length then
    let barWidth : Int := (geo.width : Int) - 2 * 5
    let barY : Int := (geo.height : Int) - 35
    let fw : Int := fill_width barWidth position length
    DrawOp.rectOutline 5 barY (5 + barWidth) (barY + 10)
      :: ((if 0 < fw then [DrawOp.rectFill 5 barY (5 + fw) (barY + 10)] else [])
        ++ [DrawOp.text 5 (barY + 12) (time_text position length).data FontTier.small])
  else []

/-- The text part of `update_display` (src/display_manager.py
lines 203-224): status glyph at y=5, at most two wrapped title lines from
y=30 advancing 25px, at most one artist line advancing 20px, at most one
album line advancing 18px.  Every wrap uses `max_width = width - 2 * margin`
with `margin = 5`. -/
def mainOps (measure : FontTier → List Char → Nat) (geo : Geometry)
    (e : Extracted) : List DrawOp :=
  let maxW : Int := (geo.width : Int) - 2 * 5
  let t := drawLines FontTier.large 5 25 30
    ((wrap_text (measure FontTier.large) maxW e.title).take 2)
  let a := drawLines FontTier.medium 5 20 t.2
    ((wrap_text (measure FontTier.medium) maxW e.artist).take 1)
  let al := drawLines FontTier.small 5 18 a.2
    ((wrap_text (measure FontTier.small) maxW e.album).take 1)
  DrawOp.text 5 5 (statusIcon e.status) FontTier.medium :: (t.1 ++ a.1 ++ al.1)

/-- Model of `DisplayManager.update_display(metadata)`
(src/display_manager.py lines 183-253) as the list of draw operations issued against the canvas, in
order: extraction with defaults, then the text block, then the progress-bar
section. -/
def update_display (measure : FontTier → List Char → Nat) (geo : Geometry)
    (metadata : Metadata) : List DrawOp :=
  mainOps measure geo (extract metadata)
    ++ progressOps geo (extract metadata).position (extract metadata).length

/-- Model of `SpotifydDisplay._should_update(metadata)` (src/main.py
lines 192-213) with the remembered `self.last_metadata` made an explicit
first argument. -/
def should_update (last current : Option Metadata) : Bool :=
  match current, last with
  | none, none => false
  | none, some _ => true
  | some _, none => true
  | some m, some l =>
    if m.title ≠ l.title ∨ m.artist ≠ l.artist then true
    else if m.status ≠ l.status then true
    else if m.status = some ("Playing".data) then true
    else false

/-- Restatement of the §4.3 update-decision truth table, written from the
words of the spec: both absent → false; exactly one absent → true; both present
and title, artist or status differ → true; otherwise true exactly when the
current status is Playing. -/
def should_update_spec (previous current : Option Metadata) : Bool :=
  match previous, current with
  | none, none => false
  | none, some _ => true
  | some _, none => true
  | some p, some c =>
    if p.title ≠ c.title ∨ p.artist ≠ c.artist ∨ p.status ≠ c.status then true
    else if c.status = some ("Playing".data) then true
    else false

/-- The render actions a poll-loop tick can perform. -/
inductive RenderEvent
  | playing (m : Metadata)
  | idle
deriving DecidableEq

/-- One iteration of `SpotifydDisplay._update_loop` (src/main.py
lines 165-184): decide via `_should_update`; on true, render the playing
view and remember the snapshot when metadata is present, otherwise show the
idle screen (only when something was remembered) and forget the snapshot. -/
def tick (last current : Option Metadata) : Option Metadata × Option RenderEvent :=
  if should_update last current then
    match current with
    | some m => (some m, some (RenderEvent.playing m))
    | none =>
      if last.isSome then (none, some RenderEvent.idle) else (last, none)
  else (last, none)

/-- Run the poll loop over a list of fetched snapshots, collecting the
renders performed. -/
def runTicks (last : Option Metadata) : List (Option Metadata) → List RenderEvent
  | [] => []
  | c :: cs =>
    let r := tick last c
    r.2.toList ++ runTicks r.1 cs

/-- All-defaults filling of a metadata mapping: every absent key replaced by
the default value `update_display` would substitute for it. -/
def withDefaults (m : Metadata) : Metadata where
  title := some (m.title.getD ("Unknown Title".data))
  artist := some (m.artist.getD ("Unknown Artist".data))
  album := some (m.album.getD ("Unknown Album".data))
  status := some (m.status.getD ("Stopped".data))
  position := some (m.position.getD 0)
  length := some (m.length.getD 0)
  art_url := some (m.art_url.getD [])

/-- Recognises the two rectangle primitives; `update_display` draws
rectangles only for the progress bar. -/
def isRectOp : DrawOp → Bool
  | DrawOp.rectOutline _ _ _ _ => true
  | DrawOp.rectFill _ _ _ _ => true
  | DrawOp.text _ _ _ _ => false

/-- A frame contains a progress bar when some rectangle was drawn. -/
def hasProgressBar (ops : List DrawOp) : Bool := ops.any isRectOp

/-- The snapshot used by the test script shipped with the repository
(src/test_display.py, Test 3): Bohemian Rhapsody at 2:00 of 5:54. -/
def sampleTrack : Metadata where
  title := some ("Bohemian Rhapsody".data)
  artist := some ("Queen".data)
  album := some ("A Night at the Opera".data)
  status := some ("Playing".data)
  position := some 120000000
  length := some 354000000
  art_url := some []

/-- The default 250 × 122 display geometry from src/config.py. -/
def defaultGeo : Geometry := ⟨250, 122⟩

/-- A font metric that reports width 0 for everything (every string fits). -/
def zeroMeasure : FontTier → List Char → Nat := fun _ _ => 0

/-! ## Word-level lemmas about `pyWords`, `joinSpace` and `wrapLoop` -/

/-- Every word produced by `splitWordsAux` is non-empty and whitespace-free,
provided the accumulator is whitespace-free. -/
theorem splitWordsAux_good (s : List Char) :
    ∀ acc : List Char, (∀ c ∈ acc, c.isWhitespace = false) →
      ∀ w ∈ splitWordsAux s acc, w ≠ [] ∧ ∀ c ∈ w, c.isWhitespace = false := by
  induction s with
  | nil =>
    intro acc hacc w hw
    by_cases h : acc = []
    · simp [splitWordsAux, h] at hw
    · simp [splitWordsAux, h] at hw
      subst hw
      refine ⟨by simpa using h, ?_⟩
      intro c hc
      exact hacc c (List.mem_reverse.mp hc)
  | cons c cs ih =>
    intro acc hacc w hw
    by_cases hws : c.isWhitespace
    · by_cases h : acc = []
      · simp only [splitWordsAux, hws, if_true, h, if_pos rfl] at hw
        exact ih [] (by simp) w hw
      · simp only [splitWordsAux, hws, if_true, if_neg h, List.mem_cons] at hw
        rcases hw with hw | hw
        · subst hw
          refine ⟨by simpa using h, ?_⟩
          intro d hd
          exact hacc d (List.mem_reverse.mp hd)
        · exact ih [] (by simp) w hw
    · simp only [splitWordsAux, hws, if_false, Bool.false_eq_true] at hw
      refine ih (c :: acc) ?_ w hw
      intro d hd
      rcases List.mem_cons.mp hd with h | h
      · subst h; simpa using hws
      · exact hacc d h

/-- Every word of `pyWords s` is non-empty and whitespace-free. -/
theorem pyWords_good (s : List Char) :
    ∀ w ∈ pyWords s, w ≠ [] ∧ ∀ c ∈ w, c.isWhitespace = false :=
  splitWordsAux_good s [] (by simp)

theorem joinSpace_cons (w : List Char) (ws : List (List Char)) (h : ws ≠ []) :
    joinSpace (w :: ws) = w ++ spaceChar :: joinSpace ws := by
  cases ws with
  | nil => exact absurd rfl h
  | cons w2 ws2 => rfl

theorem joinSpace_append (as bs : List (List Char)) (ha : as ≠ []) (hb : bs ≠ []) :
    joinSpace (as ++ bs) = joinSpace as ++ spaceChar :: joinSpace bs := by
  induction as with
  | nil => exact absurd rfl ha
  | cons a as ih =>
    cases as with
    | nil =>
      cases bs with
      | nil => exact absurd rfl hb
      | cons b bs2 => rfl
    | cons a2 as2 =>
      have h1 : (a2 :: as2) ++ bs ≠ [] := by simp
      have h2 : (a2 :: as2 : List (List Char)) ≠ [] := by simp
      show joinSpace (a :: ((a2 :: as2) ++ bs)) = _
      rw [joinSpace_cons a _ h1, ih (by simp), joinSpace_cons a _ h2]
      simp

/-- Consuming a whitespace-free block prepends it (reversed) to the
accumulator. -/
theorem splitWordsAux_word (w : List Char) (hw : ∀ c ∈ w, c.isWhitespace = false) :
    ∀ acc rest, splitWordsAux (w ++ rest) acc = splitWordsAux rest (w.reverse ++ acc) := by
  induction w with
  | nil => intro acc rest; simp
  | cons c w2 ih =>
    intro acc rest
    have hc : c.isWhitespace = false := hw c (by simp)
    show splitWordsAux (c :: (w2 ++ rest)) acc = _
    rw [splitWordsAux]
    simp only [hc, Bool.false_eq_true, if_false]
    rw [ih (fun d hd => hw d (by simp [hd])) (c :: acc) rest]
    simp

theorem splitWordsAux_space (rest acc : List Char) (h : acc ≠ []) :
    splitWordsAux (spaceChar :: rest) acc = acc.reverse :: splitWordsAux rest [] := by
  have : spaceChar.isWhitespace = true := by decide
  rw [splitWordsAux]
  simp [this, h]

/-- A single non-empty whitespace-free word splits to itself. -/
theorem pyWords_single (w : List Char) (hne : w ≠ [])
    (hw : ∀ c ∈ w, c.isWhitespace = false) : pyWords w = [w] := by
  have h1 : splitWordsAux (w ++ []) [] = splitWordsAux [] (w.reverse ++ []) :=
    splitWordsAux_word w hw [] []
  simp only [List.append_nil] at h1
  unfold pyWords
  rw [h1, splitWordsAux]
  simp [hne]

/-- Splitting recovers the words from a single-space join: the round trip
`pyWords (joinSpace ws) = ws` for non-empty whitespace-free words. -/
theorem pyWords_joinSpace (ws : List (List Char))
    (h : ∀ w ∈ ws, w ≠ [] ∧ ∀ c ∈ w, c.isWhitespace = false) :
    pyWords (joinSpace ws) = ws := by
  induction ws with
  | nil => rfl
  | cons w ws2 ih =>
    rcases h w (by simp) with ⟨hne, hfree⟩
    cases ws2 with
    | nil => exact pyWords_single w hne hfree
    | cons w2 ws3 =>
      have hne2 : (w2 :: ws3 : List (List Char)) ≠ [] := by simp
      rw [joinSpace_cons w _ hne2]
      unfold pyWords
      rw [splitWordsAux_word w hfree [] (spaceChar :: joinSpace (w2 :: ws3))]
      rw [List.append_nil, splitWordsAux_space _ _ (by simpa using hne)]
      rw [List.reverse_reverse]
      have := ih (fun v hv => h v (by simp [hv]))
      unfold pyWords at this
      rw [this]

/-- Invariant of the wrap loop: the words of the produced lines are the words
of the flushed lines, then the pending words, then the remaining input
words, in order — no word is dropped, duplicated or reordered. -/
theorem wrapLoop_join (measure : List Char → Nat) (maxWidth : Int) :
    ∀ (ws lines current : List (List Char)),
      (∀ w ∈ ws, w ≠ [] ∧ ∀ c ∈ w, c.isWhitespace = false) →
      (∀ w ∈ current, w ≠ [] ∧ ∀ c ∈ w, c.isWhitespace = false) →
      ((wrapLoop measure maxWidth ws lines current).map pyWords).flatten
        = (lines.map pyWords).flatten ++ current ++ ws := by
  intro ws
  induction ws with
  | nil =>
    intro lines current hws hcur
    by_cases h : current = []
    · simp [wrapLoop, h]
    · simp only [wrapLoop, if_neg h]
      simp [List.flatten_append, pyWords_joinSpace current hcur]
  | cons w ws2 ih =>
    intro lines current hws hcur
    have hw := hws w (by simp)
    have hws2 : ∀ v ∈ ws2, v ≠ [] ∧ ∀ c ∈ v, c.isWhitespace = false :=
      fun v hv => hws v (by simp [hv])
    show ((wrapLoop measure maxWidth (w :: ws2) lines current).map pyWords).flatten = _
    rw [wrapLoop]
    by_cases hfit : (measure (joinSpace (current ++ [w])) : Int) ≤ maxWidth
    · rw [if_pos hfit, ih lines (current ++ [w])
        hws2
        (by intro v hv
            rcases List.mem_append.mp hv with h | h
            · exact hcur v h
            · rcases List.mem_singleton.mp h with rfl; exact hw)]
      simp
    · rw [if_neg hfit]
      by_cases h : current = []
      · rw [if_pos h, ih (lines ++ [w]) [] hws2 (by simp)]
        subst h
        simp [List.flatten_append, pyWords_single w hw.1 hw.2]
      · rw [if_neg h, ih (lines ++ [joinSpace current]) [w] hws2
          (by intro v hv; rcases List.mem_singleton.mp hv with rfl; exact hw)]
        simp [List.flatten_append, pyWords_joinSpace current hcur]

/-- C4 helper: splitting the empty list of characters gives no words. -/
theorem pyWords_nil : pyWords [] = [] := rfl

/-- C4: text wrapping never drops words — the whitespace-separated words of
all lines returned by `_wrap_text`, concatenated in order, are exactly the
whitespace-separated words of the input, in order, for every measure, every
positive `max_width` and every input string. -/
theorem wrap_text_preserves_words (measure : List Char → Nat) (maxWidth : Int)
    (text : List Char) (hpos : 0 < maxWidth) :
    ((wrap_text measure maxWidth text).map pyWords).flatten = pyWords text := by
  by_cases h : text = []
  · subst h; rfl
  · unfold wrap_text
    rw [if_neg h]
    show ((if wrapLoop measure maxWidth (pyWords text) [] [] = [] then [[]]
        else wrapLoop measure maxWidth (pyWords text) [] []).map pyWords).flatten
      = pyWords text
    have hjoin := wrapLoop_join measure maxWidth (pyWords text) [] []
      (pyWords_good text) (by simp)
    simp only [List.map_nil, List.flatten_nil, List.nil_append] at hjoin
    by_cases hl : wrapLoop measure maxWidth (pyWords text) [] [] = []
    · rw [hl] at hjoin
      simp only [List.map_nil, List.flatten_nil] at hjoin
      rw [if_pos hl, ← hjoin]
      rfl
    · rw [if_neg hl]
      exact hjoin

/-- Witness for C4 at a concrete input. -/
theorem wrap_text_preserves_words_witness :
    (0 : Int) < 3 ∧
      ((wrap_text (fun l => l.length) 3 "aa bb ccccc dd".data).map pyWords).flatten
        = pyWords ("aa bb ccccc dd".data) :=
  ⟨by decide, wrap_text_preserves_words (fun l => l.length) 3 "aa bb ccccc dd".data (by decide)⟩

/-- Joining a non-empty list of words yields a string that extends the join
of any shorter front segment: there is a tail `t` with
`joinSpace (as ++ bs) = joinSpace as ++ t`. -/
theorem joinSpace_append_exists (as bs : List (List Char)) (ha : as ≠ []) :
    ∃ t, joinSpace (as ++ bs) = joinSpace as ++ t := by
  cases bs with
  | nil => exact ⟨[], by simp⟩
  | cons b bs2 =>
    exact ⟨spaceChar :: joinSpace (b :: bs2), joinSpace_append as (b :: bs2) ha (by simp)⟩

/-- When the whole (normalized) line fits under a measure that is monotone
under appending, the wrap loop accumulates every word into one line. -/
theorem wrapLoop_short (measure : List Char → Nat) (maxWidth : Int)
    (hmono : ∀ u v : List Char, measure u ≤ measure (u ++ v)) :
    ∀ (ws lines current : List (List Char)), current ++ ws ≠ [] →
      (measure (joinSpace (current ++ ws)) : Int) ≤ maxWidth →
      wrapLoop measure maxWidth ws lines current = lines ++ [joinSpace (current ++ ws)] := by
  intro ws
  induction ws with
  | nil =>
    intro lines current hne hfit
    have h : current ≠ [] := by simpa using hne
    simp [wrapLoop, h]
  | cons w ws2 ih =>
    intro lines current hne hfit
    have hne2 : current ++ [w] ≠ [] := by simp
    have hfit2 : (measure (joinSpace (current ++ [w])) : Int) ≤ maxWidth := by
      obtain ⟨t, ht⟩ := joinSpace_append_exists (current ++ [w]) ws2 hne2
      have h1 : measure (joinSpace (current ++ [w]))
          ≤ measure (joinSpace (current ++ [w]) ++ t) := hmono _ _
      rw [← ht] at h1
      have h2 : (measure (joinSpace (current ++ [w] ++ ws2)) : Int) ≤ maxWidth := by
        simpa [List.append_assoc] using hfit
      exact le_trans (Int.ofNat_le.mpr h1) h2
    show wrapLoop measure maxWidth (w :: ws2) lines current = _
    rw [wrapLoop, if_pos hfit2, ih lines (current ++ [w]) (by simp) (by
      simpa [List.append_assoc] using hfit)]
    simp [List.append_assoc]

/-- C5 (amended): for a measure monotone under appending, if the normalized
input (its words joined by single spaces) measures within `max_width`, then
`_wrap_text` returns exactly one line, equal to that normalized input — the
trimmed input with every internal whitespace run collapsed to one space. -/
theorem wrap_text_short_normalized (measure : List Char → Nat) (maxWidth : Int)
    (text : List Char)
    (hmono : ∀ u v : List Char, measure u ≤ measure (u ++ v))
    (hfit : (measure (joinSpace (pyWords text)) : Int) ≤ maxWidth) :
    wrap_text measure maxWidth text = [joinSpace (pyWords text)] := by
  by_cases h : text = []
  · subst h; rfl
  · unfold wrap_text
    rw [if_neg h]
    show (if wrapLoop measure maxWidth (pyWords text) [] [] = [] then [[]]
        else wrapLoop measure maxWidth (pyWords text) [] []) = _
    by_cases hw : pyWords text = []
    · rw [hw]
      simp [wrapLoop, joinSpace]
    · have := wrapLoop_short measure maxWidth hmono (pyWords text) [] []
        (by simpa using hw) (by simpa using hfit)
      simp only [List.nil_append] at this
      rw [this]
      simp

/-- Counterexample to C5 as stated: with the character-count metric, the
string `"a  b"` (double space) measures 4 ≤ 10, yet `_wrap_text` returns the
whitespace-collapsed line `"a b"`, not the trimmed input `"a  b"`. -/
theorem wrap_text_short_counterexample :
    ((fun l : List Char => l.length) "a  b".data : Int) ≤ 10 ∧
      wrap_text (fun l : List Char => l.length) 10 "a  b".data
        ≠ [pyStrip ("a  b".data)] := by
  constructor
  · decide
  · decide

/-- C6: for every measure and positive `max_width`, a whitespace-only (in
particular empty) input yields the single empty line, and the result of
`_wrap_text` is never the empty sequence. -/
theorem wrap_text_nonempty (measure : List Char → Nat) (maxWidth : Int)
    (text : List Char) (hpos : 0 < maxWidth) :
    ((∀ c ∈ text, c.isWhitespace = true) → wrap_text measure maxWidth text = [[]]) ∧
      wrap_text measure maxWidth text ≠ [] := by
  constructor
  · intro hws
    by_cases h : text = []
    · subst h; rfl
    · have hpw : pyWords text = [] := by
        have : ∀ s : List Char, (∀ c ∈ s, c.isWhitespace = true) →
            splitWordsAux s [] = [] := by
          intro s
          induction s with
          | nil => intro _; rfl
          | cons c cs ih =>
            intro hall
            have hc : c.isWhitespace = true := hall c (by simp)
            rw [splitWordsAux]
            simp only [hc, if_true, if_pos rfl]
            exact ih fun d hd => hall d (by simp [hd])
        exact this text hws
      unfold wrap_text
      rw [if_neg h]
      show (if wrapLoop measure maxWidth (pyWords text) [] [] = [] then [[]]
          else wrapLoop measure maxWidth (pyWords text) [] []) = [[]]
      rw [hpw]
      simp [wrapLoop]
  · unfold wrap_text
    by_cases h : text = []
    · simp [h]
    · rw [if_neg h]
      show (if wrapLoop measure maxWidth (pyWords text) [] [] = [] then [[]]
          else wrapLoop measure maxWidth (pyWords text) [] []) ≠ []
      by_cases hl : wrapLoop measure maxWidth (pyWords text) [] [] = []
      · simp [hl]
      · simp [hl]

/-- Witness for C5 (amended) at a concrete input. -/
theorem wrap_text_short_normalized_witness :
    wrap_text (fun l : List Char => l.length) 20 "hello  epaper".data
      = [joinSpace (pyWords ("hello  epaper".data))] :=
  wrap_text_short_normalized (fun l => l.length) 20 "hello  epaper".data
    (fun u v => by simp) (by decide)

/-- Witness for C6 at a concrete input. -/
theorem wrap_text_nonempty_witness :
    wrap_text (fun _ : List Char => 0) 240 "   ".data = [[]] ∧
      wrap_text (fun _ : List Char => 0) 240 "   ".data ≠ [] :=
  ⟨(wrap_text_nonempty (fun _ => 0) 240 "   ".data (by decide)).1 (by decide),
    (wrap_text_nonempty (fun _ => 0) 240 "   ".data (by decide)).2⟩

/-- C1: `_should_update` computes exactly the five-case truth table of §4.3,
here written out from the words of the spec as `should_update_spec`: false when
both snapshots are absent, true when exactly one is absent, true when title,
artist or status differ, true when nothing differs but the current status is
Playing, false otherwise. -/
theorem should_update_truth_table (previous current : Option Metadata) :
    should_update previous current = should_update_spec previous current := by
  cases previous with
  | none => cases current <;> rfl
  | some p =>
    cases current with
    | none => rfl
    | some c =>
      simp only [should_update, should_update_spec]
      by_cases h1 : c.title = p.title
      · by_cases h2 : c.artist = p.artist
        · by_cases h3 : c.status = p.status
          · rw [if_neg (show ¬(c.title ≠ p.title ∨ c.artist ≠ p.artist) by
                simp [h1, h2]),
              if_neg (show ¬c.status ≠ p.status by simp [h3]),
              if_neg (show ¬(p.title ≠ c.title ∨ p.artist ≠ c.artist ∨
                  p.status ≠ c.status) by simp [h1, h2, h3])]
          · rw [if_neg (show ¬(c.title ≠ p.title ∨ c.artist ≠ p.artist) by
                simp [h1, h2]),
              if_pos (show c.status ≠ p.status from h3),
              if_pos (Or.inr (Or.inr fun e => h3 e.symm))]
        · rw [if_pos (Or.inr h2), if_pos (Or.inr (Or.inl fun e => h2 e.symm))]
      · rw [if_pos (Or.inl h1), if_pos (Or.inl fun e => h1 e.symm)]

/-- C8: starting with nothing remembered, the snapshot sequence
`[Some(track Playing), None, None]` performs exactly two renders — the
playing view, then the idle view — and the third tick renders nothing. -/
theorem idle_transition_two_renders (m : Metadata)
    (h : m.status = some ("Playing".data)) :
    runTicks none [some m, none, none]
      = [RenderEvent.playing m, RenderEvent.idle] := rfl

/-- Witness for C8 on the sample track of the test script. -/
theorem idle_transition_two_renders_witness :
    sampleTrack.status = some ("Playing".data) ∧
      runTicks none [some sampleTrack, none, none]
        = [RenderEvent.playing sampleTrack, RenderEvent.idle] :=
  ⟨rfl, idle_transition_two_renders sampleTrack rfl⟩

/-- C9: the update decision ignores `album`, `position`, `length` and
`art_url` — for two present snapshots agreeing on `title`, `artist` and
`status`, with the current status not Playing, `_should_update` returns
`false` whatever the other fields hold. -/
theorem should_update_ignores_hidden_fields (p c : Metadata)
    (ht : p.title = c.title) (ha : p.artist = c.artist)
    (hs : p.status = c.status) (hp : c.status ≠ some ("Playing".data)) :
    should_update (some p) (some c) = false := by
  simp [should_update, ht, ha, hs, hp]

/-- Witness for C9: two paused snapshots that differ in album, position,
length and art URL still yield `false`. -/
theorem should_update_ignores_hidden_fields_witness :
    should_update
      (some ⟨some ("T".data), some ("A".data), some ("X".data), some ("Paused".data),
        some 0, some 100000000, some []⟩)
      (some ⟨some ("T".data), some ("A".data), some ("Y".data), some ("Paused".data),
        some 55000000, some 200000000, some ("file:///art".data)⟩) = false :=
  should_update_ignores_hidden_fields _ _ rfl rfl rfl (by decide)

/-- The helper `drawLines` only issues text draws, never rectangles. -/
theorem drawLines_no_rect (tier : FontTier) (x advance : Int) :
    ∀ (lines : List (List Char)) (y : Int),
      (drawLines tier x advance y lines).1.any isRectOp = false := by
  intro lines
  induction lines with
  | nil => intro y; rfl
  | cons l ls ih =>
    intro y
    simp only [drawLines, List.any_cons, ih (y + advance), Bool.or_false]
    rfl

/-- The text block of `update_display` contains no rectangle draw. -/
theorem mainOps_no_rect (measure : FontTier → List Char → Nat) (geo : Geometry)
    (e : Extracted) : (mainOps measure geo e).any isRectOp = false := by
  simp only [mainOps, List.any_cons, List.any_append, drawLines_no_rect,
    Bool.or_false]
  rfl

/-- The progress-bar section contains a rectangle exactly when the extracted
length in seconds is positive. -/
theorem hasProgressBar_progressOps (geo : Geometry) (position length : Nat) :
    (hasProgressBar (progressOps geo position length) = true) ↔ 0 < length := by
  by_cases h : 0 < length
  · simp only [progressOps, if_pos h, hasProgressBar, List.any_cons]
    simp [isRectOp, h]
  · simp only [progressOps, if_neg h, hasProgressBar, List.any_nil]
    simp [h]

/-- Positivity of the seconds count extracted from a microsecond count. -/
theorem seconds_pos_iff (micros : Nat) : 0 < micros / 1000000 ↔ 1000000 ≤ micros := by
  rw [Nat.pos_iff_ne_zero, Ne, Nat.div_eq_zero_iff (by norm_num : 0 < 1000000)]
  omega

/-- C2 (amended): the frame produced by `update_display` contains progress
bar rectangles exactly when the length of the snapshot is at least 1,000,000
microseconds (one whole second): the code guards the bar on the seconds
value `length_micros div 1000000`, not on `length_micros > 0` itself.  When
the bar is drawn the time label is drawn with it, 12px below the bar top. -/
theorem progress_bar_iff_full_second (measure : FontTier → List Char → Nat)
    (geo : Geometry) (meta : Metadata) :
    (hasProgressBar (update_display measure geo meta) = true
        ↔ 1000000 ≤ meta.length.getD 0) ∧
      (1000000 ≤ meta.length.getD 0 →
        DrawOp.text 5 ((geo.height : Int) - 35 + 12)
            (time_text (extract meta).position (extract meta).length).data
            FontTier.small
          ∈ update_display measure geo meta) := by
  constructor
  · rw [update_display]
    unfold hasProgressBar
    rw [List.any_append]
    rw [mainOps_no_rect, Bool.false_or]
    rw [show ((progressOps geo (extract meta).position (extract meta).length).any
        isRectOp = true)
      = (hasProgressBar (progressOps geo (extract meta).position
          (extract meta).length) = true) from rfl]
    rw [hasProgressBar_progressOps]
    exact seconds_pos_iff (meta.length.getD 0)
  · intro h
    have hpos : 0 < (extract meta).length := (seconds_pos_iff _).mpr h
    rw [update_display]
    apply List.mem_append_right
    simp only [progressOps, if_pos hpos]
    simp

/-- Witness for C2 (amended) on the sample track of the test script. -/
theorem progress_bar_iff_full_second_witness :
    hasProgressBar (update_display zeroMeasure defaultGeo sampleTrack) = true ∧
      DrawOp.text 5 ((defaultGeo.height : Int) - 35 + 12)
          (time_text (extract sampleTrack).position
            (extract sampleTrack).length).data FontTier.small
        ∈ update_display zeroMeasure defaultGeo sampleTrack :=
  ⟨(progress_bar_iff_full_second zeroMeasure defaultGeo sampleTrack).1.mpr
      (by norm_num [sampleTrack]),
    (progress_bar_iff_full_second zeroMeasure defaultGeo sampleTrack).2
      (by norm_num [sampleTrack])⟩

/-- A snapshot whose length is half a second: positive microseconds, zero
whole seconds. -/
def halfSecondTrack : Metadata where
  title := some ("T".data)
  artist := some ("A".data)
  album := some ("B".data)
  status := some ("Playing".data)
  position := some 0
  length := some 500000
  art_url := some []

/-- Counterexample to C2 as stated: `length_micros = 500000` is strictly
positive, yet the produced frame contains no progress-bar rectangle (and no
time label), because the code tests the seconds value `500000 div 1000000 = 0`. -/
theorem progress_bar_counterexample :
    0 < (500000 : Nat) ∧
      hasProgressBar (update_display zeroMeasure defaultGeo halfSecondTrack) = false := by
  constructor
  · decide
  · decide

/-- The clamped progress fraction is never negative. -/
theorem clampFrac_nonneg (position length : Nat) : 0 ≤ clampFrac position length :=
  le_min (by norm_num) (le_max_left 0 _)

/-- The clamped progress fraction never exceeds one. -/
theorem clampFrac_le_one (position length : Nat) : clampFrac position length ≤ 1 :=
  min_le_left 1 _

/-- When the position has reached or passed the length, the clamp saturates
at one. -/
theorem clampFrac_of_ge (position length : Nat) (hl : 0 < length)
    (h : length ≤ position) : clampFrac position length = 1 := by
  unfold clampFrac
  have hl2 : (0 : ℚ) < (length : ℚ) := by exact_mod_cast hl
  have h1 : (1 : ℚ) ≤ (position : ℚ) / (length : ℚ) := by
    rw [le_div_iff₀ hl2]
    exact_mod_cast by simpa using h
  rw [max_eq_right (le_trans zero_le_one h1), min_eq_left h1]

/-- Before the end of the track the clamp is the raw ratio. -/
theorem clampFrac_of_lt (position length : Nat) (h : position < length) :
    clampFrac position length = (position : ℚ) / (length : ℚ) := by
  unfold clampFrac
  have hl2 : (0 : ℚ) < (length : ℚ) := by
    exact_mod_cast Nat.pos_of_ne_zero (by omega)
  have h0 : (0 : ℚ) ≤ (position : ℚ) / (length : ℚ) :=
    div_nonneg (by positivity) hl2.le
  have h1 : (position : ℚ) / (length : ℚ) ≤ 1 := by
    rw [div_le_one hl2]
    exact_mod_cast h.le
  rw [max_eq_right h0, min_eq_right h1]

/-- For a non-negative bar width the truncation in `int(...)` is a floor. -/
theorem fill_width_eq_floor (barWidth : Int) (hbw : 0 ≤ barWidth)
    (position length : Nat) :
    fill_width barWidth position length
      = ⌊(barWidth : ℚ) * clampFrac position length⌋ := by
  unfold fill_width pyInt
  rw [if_neg (not_lt.mpr (mul_nonneg (by exact_mod_cast hbw)
    (clampFrac_nonneg position length)))]

/-- The exact integer value of the rational fill-width computation. -/
theorem fill_width_eq (barWidth : Int) (hbw : 0 ≤ barWidth)
    (position length : Nat) (hl : 0 < length) :
    fill_width barWidth position length
      = if length ≤ position then barWidth
        else barWidth * (position : Int) / (length : Int) := by
  by_cases h : length ≤ position
  · rw [if_pos h, fill_width_eq_floor barWidth hbw,
      clampFrac_of_ge position length hl h, mul_one]
    exact Int.floor_intCast barWidth
  · rw [if_neg h]
    push_neg at h
    rw [fill_width_eq_floor barWidth hbw, clampFrac_of_lt position length h]
    have hcast : (barWidth : ℚ) * ((position : ℚ) / (length : ℚ))
        = ((barWidth * (position : Int) : Int) : ℚ) / ((length : Nat) : ℚ) := by
      push_cast
      ring
    rw [hcast, Rat.floor_intCast_div_natCast]

/-- C3 (amended): whenever the bar is drawn (length at least one whole
second) the clamped fraction computed by `update_display` lies in `[0, 1]`
— also when position exceeds length — the truncated fill width equals
`floor(bar_width * clamp(position_secs/length_secs, 0, 1))` with
`bar_width = width - 2 * 5`, and a positive fill width is drawn as the inner
filled rectangle of exactly that width.  The ratio is taken on the extracted
seconds values, not on the raw microsecond values. -/
theorem progress_clamp_and_fill (measure : FontTier → List Char → Nat)
    (geo : Geometry) (meta : Metadata) (hw : 10 ≤ geo.width)
    (hl : 1000000 ≤ meta.length.getD 0) :
    0 ≤ clampFrac (extract meta).position (extract meta).length ∧
      clampFrac (extract meta).position (extract meta).length ≤ 1 ∧
      fill_width ((geo.width : Int) - 2 * 5) (extract meta).position
          (extract meta).length
        = ⌊(((geo.width : Int) - 2 * 5 : Int) : ℚ)
            * clampFrac (extract meta).position (extract meta).length⌋ ∧
      (0 < fill_width ((geo.width : Int) - 2 * 5) (extract meta).position
          (extract meta).length →
        DrawOp.rectFill 5 ((geo.height : Int) - 35)
            (5 + fill_width ((geo.width : Int) - 2 * 5) (extract meta).position
              (extract meta).length)
            ((geo.height : Int) - 35 + 10)
          ∈ update_display measure geo meta) := by
  have hbw : (0 : Int) ≤ (geo.width : Int) - 2 * 5 := by omega
  refine ⟨clampFrac_nonneg _ _, clampFrac_le_one _ _,
    fill_width_eq_floor _ hbw _ _, ?_⟩
  intro hfw
  have hpos : 0 < (extract meta).length := (seconds_pos_iff _).mpr hl
  rw [update_display]
  apply List.mem_append_right
  simp only [progressOps, if_pos hpos, if_pos hfw]
  simp

/-- Witness for C3 (amended) on the sample track of the test script. -/
theorem progress_clamp_and_fill_witness :
    0 ≤ clampFrac (extract sampleTrack).position (extract sampleTrack).length ∧
      clampFrac (extract sampleTrack).position (extract sampleTrack).length ≤ 1 ∧
      fill_width ((defaultGeo.width : Int) - 2 * 5) (extract sampleTrack).position
          (extract sampleTrack).length
        = ⌊(((defaultGeo.width : Int) - 2 * 5 : Int) : ℚ)
            * clampFrac (extract sampleTrack).position (extract sampleTrack).length⌋ ∧
      (0 < fill_width ((defaultGeo.width : Int) - 2 * 5) (extract sampleTrack).position
          (extract sampleTrack).length →
        DrawOp.rectFill 5 ((defaultGeo.height : Int) - 35)
            (5 + fill_width ((defaultGeo.width : Int) - 2 * 5)
              (extract sampleTrack).position (extract sampleTrack).length)
            ((defaultGeo.height : Int) - 35 + 10)
          ∈ update_display zeroMeasure defaultGeo sampleTrack) :=
  progress_clamp_and_fill zeroMeasure defaultGeo sampleTrack (by decide) (by decide)

/-- A snapshot at 1.5 s of a 2 s track: the microsecond ratio is 3/4, the
extracted seconds ratio is 1/2. -/
def lopsidedTrack : Metadata where
  title := some ("T".data)
  artist := some ("A".data)
  album := some ("B".data)
  status := some ("Playing".data)
  position := some 1500000
  length := some 2000000
  art_url := some []

/-- Counterexample to C3 as stated: with the default 250px geometry,
`floor(bar_width * clamp(position_micros/length_micros, 0, 1))` is
`floor(240 * 3/4) = 180`, but `update_display` draws the inner filled
rectangle with width 120 (and draws no rectangle of width 180), because the
code computes the ratio on the extracted whole-second values `1 / 2`. -/
theorem progress_fill_counterexample :
    ⌊((250 : ℚ) - 2 * 5) * min 1 (max 0 ((1500000 : ℚ) / 2000000))⌋ = 180 ∧
      DrawOp.rectFill 5 ((defaultGeo.height : Int) - 35) (5 + 120)
          ((defaultGeo.height : Int) - 35 + 10)
        ∈ update_display zeroMeasure defaultGeo lopsidedTrack ∧
      DrawOp.rectFill 5 ((defaultGeo.height : Int) - 35) (5 + 180)
          ((defaultGeo.height : Int) - 35 + 10)
        ∉ update_display zeroMeasure defaultGeo lopsidedTrack := by
  have hratio : ((1500000 : ℚ) / 2000000) = 3 / 4 := by norm_num
  have hclamp : min 1 (max 0 ((1500000 : ℚ) / 2000000)) = 3 / 4 := by
    rw [hratio, max_eq_right (by norm_num : (0 : ℚ) ≤ 3 / 4),
      min_eq_right (by norm_num : (3 / 4 : ℚ) ≤ 1)]
  have hfloor : ⌊((250 : ℚ) - 2 * 5) * min 1 (max 0 ((1500000 : ℚ) / 2000000))⌋ = 180 := by
    rw [hclamp, show ((250 : ℚ) - 2 * 5) * (3 / 4) = ((180 : Int) : ℚ) by norm_num]
    exact Int.floor_intCast 180
  have hfw : fill_width ((defaultGeo.width : Int) - 2 * 5) 1 2 = 120 := by
    rw [fill_width_eq _ (by decide) 1 2 (by decide)]
    decide
  have hpo : progressOps defaultGeo 1 2
      = [DrawOp.rectOutline 5 ((defaultGeo.height : Int) - 35)
            (5 + ((defaultGeo.width : Int) - 2 * 5))
            ((defaultGeo.height : Int) - 35 + 10),
          DrawOp.rectFill 5 ((defaultGeo.height : Int) - 35) (5 + 120)
            ((defaultGeo.height : Int) - 35 + 10),
          DrawOp.text 5 ((defaultGeo.height : Int) - 35 + 12)
            (time_text 1 2).data FontTier.small] := by
    simp only [progressOps, if_pos (show (0 : Nat) < 2 by decide), hfw,
      if_pos (show (0 : Int) < 120 by decide)]
    rfl
  have he : update_display zeroMeasure defaultGeo lopsidedTrack
      = mainOps zeroMeasure defaultGeo (extract lopsidedTrack)
        ++ progressOps defaultGeo 1 2 := rfl
  refine ⟨hfloor, ?_, ?_⟩
  · rw [he, hpo]
    apply List.mem_append_right
    simp
  · rw [he, hpo]
    intro hmem
    rcases List.mem_append.mp hmem with hmem | hmem
    · have := mainOps_no_rect zeroMeasure defaultGeo (extract lopsidedTrack)
      rw [List.any_eq_false] at this
      exact absurd (this _ hmem) (by simp [isRectOp])
    · revert hmem
      decide

/-- C7: `_format_time` renders `seconds` as zero-padded `MM:SS` from the
quotient and remainder by 60, and on the sample track (position 120000000µs,
length 354000000µs — seconds by integer division by 1,000,000) the frame
carries the time label `"02:00 / 05:54"` for every font metric and
geometry. -/
theorem time_label_scenario :
    (∀ seconds : Nat, format_time seconds
        = py02d (seconds / 60) ++ ":" ++ py02d (seconds % 60)) ∧
      time_text (120000000 / 1000000) (354000000 / 1000000) = "02:00 / 05:54" ∧
      (∀ (measure : FontTier → List Char → Nat) (geo : Geometry),
        DrawOp.text 5 ((geo.height : Int) - 35 + 12) "02:00 / 05:54".data
            FontTier.small
          ∈ update_display measure geo sampleTrack) := by
  refine ⟨fun _ => rfl, by decide, ?_⟩
  intro measure geo
  rw [update_display]
  apply List.mem_append_right
  have hpos : 0 < (extract sampleTrack).length := by decide
  simp only [progressOps, if_pos hpos]
  have hlabel : (time_text (extract sampleTrack).position
      (extract sampleTrack).length).data = "02:00 / 05:54".data := by decide
  simp [hlabel]

/-- C10: `update_display` is total on metadata with missing keys — it renders
exactly the frame of the defaulted snapshot (`Unknown Title` / `Unknown
Artist` / `Unknown Album` / `Stopped` / 0 / 0); a missing status selects the
stopped glyph and a missing length suppresses the progress bar. -/
theorem update_display_defaults (measure : FontTier → List Char → Nat)
    (geo : Geometry) (meta : Metadata) :
    update_display measure geo meta
        = update_display measure geo (withDefaults meta) ∧
      (meta.status = none → statusIcon (extract meta).status = "⏹".data) ∧
      (meta.length = none →
        hasProgressBar (update_display measure geo meta) = false) := by
  refine ⟨rfl, ?_, ?_⟩
  · intro h
    have hst : (extract meta).status = "Stopped".data := by
      simp [extract, h]
    rw [hst]
    decide
  · intro h
    have hlen : (extract meta).length = 0 := by
      simp [extract, h]
    rw [update_display]
    unfold hasProgressBar
    rw [List.any_append, mainOps_no_rect, Bool.false_or, hlen]
    simp [progressOps]

/-- Witness for C10 on the all-absent metadata mapping. -/
theorem update_display_defaults_witness :
    update_display zeroMeasure defaultGeo ⟨none, none, none, none, none, none, none⟩
        = update_display zeroMeasure defaultGeo
            (withDefaults ⟨none, none, none, none, none, none, none⟩) ∧
      statusIcon (extract ⟨none, none, none, none, none, none, none⟩).status
        = "⏹".data ∧
      hasProgressBar (update_display zeroMeasure defaultGeo
        ⟨none, none, none, none, none, none, none⟩) = false :=
  ⟨(update_display_defaults zeroMeasure defaultGeo _).1,
    (update_display_defaults zeroMeasure defaultGeo _).2.1 rfl,
    (update_display_defaults zeroMeasure defaultGeo _).2.2 rfl⟩
